import Mathlib

/-!
Verification development for the assembly_sim Gazebo plugin
(assembly_soup_plugin.h / assembly_soup_plugin.cpp).

The plugin discovers "mates" between attachment points of simulated parts:
a background discovery loop (stateUpdateLoop / getStateUpdates) scans all
female/male mate-point pairs, lazily creates Mate objects (constructing a
physics joint per Mate), stages state transitions under a mutex, and the
per-tick handler (OnUpdate) try-locks the mutex, applies staged transitions
and runs a per-tick update loop.

The embedding below mirrors the control flow of the source; parts of the
repository that live in the missing models.h (the Mate/MateModel class
bodies) are modelled from the spec and marked as such in doc comments.
Poses and rotations are kept as free symbolic terms, since the claims under
study concern counts, table structure and control flow, not trigonometry.
-/

namespace AssemblySim

/-- MateModel transition intents as used by the plugin (MateModel::NONE /
MateModel::MATED appear in the cpp; UNMATED covers detach requests). -/
inductive Intent
  | NONE
  | MATED
  | UNMATED
deriving DecidableEq

/-- Modelled from the spec: the discrete state of a Mate (the Mate class body
is in models.h, which is not in the repository snapshot); states are
Detached (initial) and Mated. -/
inductive MState
  | DETACHED
  | MATED
deriving DecidableEq

/-- MatePoint template data. uid models the pointer identity of the shared
MatePoint object (the mate-table key); ptId is MatePoint::id; mtype names the
governing MateModel (mate models are registered once per type name in
mate_models_, so type-name equality models MateModelPtr equality). -/
structure MatePt where
  uid : Nat
  ptId : Nat
  mtype : String
deriving DecidableEq

/-- An Atom: a link with an atom model; uid models the AtomPtr identity used
by the "you cannot mate with yourself" check. -/
structure AtomR where
  uid : Nat
  linkName : String
  femalePts : List MatePt
  malePts : List MatePt
deriving DecidableEq

/-- One Mate record. femaleLink/maleLink are the joint parent/child link
names written into the joint SDF by Mate::Mate (lines 73-74).
pending_state and state are modelled from the spec where models.h is
missing: pending starts NONE and the discrete state starts DETACHED.
jointConstructed/jointAttached track the joint collaborator calls made by
the constructor (CreateJoint/Load/Init, then Detach). -/
structure MateR where
  female_pt : Nat
  male_pt : Nat
  femaleLink : String
  maleLink : String
  pending_state : Intent
  state : MState
  jointConstructed : Bool
  jointAttached : Bool
deriving DecidableEq

/-- Mate::Mate (cpp lines 34-104): constructs the joint exactly once
(CreateJoint, Load, Init) and immediately detaches it, so a freshly built
Mate has a constructed, detached joint and no pending transition. -/
def mkMate (fmp mmp : MatePt) (fa ma : AtomR) : MateR :=
  { female_pt := fmp.uid,
    male_pt := mmp.uid,
    femaleLink := fa.linkName,
    maleLink := ma.linkName,
    pending_state := Intent.NONE,
    state := MState.DETACHED,
    jointConstructed := true,
    jointAttached := false }

/-- Lookup in one row of the mate table (the inner mate_point_map_t). -/
def entryGet : List (Nat × Nat) → Nat → Option Nat
  | [], _ => none
  | (k, v) :: rest, m => if k = m then some v else entryGet rest m

/-- Insert or replace in one row of the mate table. -/
def entrySet : List (Nat × Nat) → Nat → Nat → List (Nat × Nat)
  | [], m, v => [(m, v)]
  | (k, w) :: rest, m, v =>
    if k = m then (m, v) :: rest else (k, w) :: entrySet rest m v

/-- Lookup of a female mate point row in mate_table_t. -/
def rowGet : List (Nat × List (Nat × Nat)) → Nat → Option (List (Nat × Nat))
  | [], _ => none
  | (k, r) :: rest, f => if k = f then some r else rowGet rest f

/-- Insert or replace a female mate point row in mate_table_t. -/
def rowSet : List (Nat × List (Nat × Nat)) → Nat → List (Nat × Nat) →
    List (Nat × List (Nat × Nat))
  | [], f, r => [(f, r)]
  | (k, q) :: rest, f, r =>
    if k = f then (f, r) :: rest else (k, q) :: rowSet rest f r

/-- Two-level lookup: mate_table_[female][male]. -/
def tblFind (t : List (Nat × List (Nat × Nat))) (f m : Nat) : Option Nat :=
  match rowGet t f with
  | none => none
  | some row => entryGet row m

/-- The orchestrator state. mate_table models mate_table_ (keyed by mate
point identities, holding indices into mateStore); mateStore holds the Mate
records themselves (index = identity of the shared MatePtr); mates_set
models the member mates_ declared in the header ("all mates"), which the
cpp only ever reads in the OnUpdate per-tick loop; mates_to_update models
the staged set. The remaining fields instrument lock acquisitions,
getStateUpdate calls (and how many ran while holding the mutex), Mate
creations, joint constructions, the MateList message being accumulated, the
last published message, and which mates received the per-tick update call. -/
structure Soup where
  mate_table : List (Nat × List (Nat × Nat))
  mateStore : List MateR
  mates_set : List Nat
  mates_to_update : List Nat
  running : Bool
  lockAcqs : Nat
  computeCalls : Nat
  computeUnderLockCalls : Nat
  creations : List (Nat × Nat)
  jointsCreated : Nat
  mates_msg : List (String × String)
  lastPublished : Option (List (String × String))
  perTickCalls : List Nat

/-- The state right after the AssemblySoup constructor and Load. -/
def initSoup : Soup :=
  { mate_table := [], mateStore := [], mates_set := [], mates_to_update := [],
    running := false, lockAcqs := 0, computeCalls := 0,
    computeUnderLockCalls := 0, creations := [], jointsCreated := 0,
    mates_msg := [], lastPublished := none, perTickCalls := [] }

/-- boost::unordered_set insert: no duplicate elements. -/
def insertStaged (i : Nat) (l : List Nat) : List Nat :=
  if l.contains i then l else l ++ [i]

/-- Lines 412-450: look the (female point, male point) pair up in the
two-level mate table and construct a Mate (with its joint) only when no
entry exists; otherwise reuse the stored Mate. -/
def lookupOrCreate (fa ma : AtomR) (fmp mmp : MatePt) (s : Soup) : Nat × Soup :=
  match rowGet s.mate_table fmp.uid with
  | none =>
    (s.mateStore.length,
      { s with
        mateStore := s.mateStore ++ [mkMate fmp mmp fa ma],
        mate_table := rowSet s.mate_table fmp.uid [(mmp.uid, s.mateStore.length)],
        creations := s.creations ++ [(fmp.uid, mmp.uid)],
        jointsCreated := s.jointsCreated + 1 })
  | some row =>
    match entryGet row mmp.uid with
    | none =>
      (s.mateStore.length,
        { s with
          mateStore := s.mateStore ++ [mkMate fmp mmp fa ma],
          mate_table := rowSet s.mate_table fmp.uid (entrySet row mmp.uid s.mateStore.length),
          creations := s.creations ++ [(fmp.uid, mmp.uid)],
          jointsCreated := s.jointsCreated + 1 })
    | some idx => (idx, s)

/-- Lines 452-469: skip the pair when a transition is already pending;
otherwise acquire the shared-state mutex, run getStateUpdate while holding
it, record the resulting pending state, stage the mate when the update is
not NONE and, when publication is enabled and the update is MATED, append
the joint parent/child link names to the MateList message. The policy
argument stands for the virtual MateModel::getStateUpdate. -/
def stagePhase (pol : MateR → Intent) (pub : Bool) (idx : Nat) (s : Soup) : Soup :=
  match s.mateStore[idx]? with
  | none => s
  | some mate =>
    if mate.pending_state = Intent.NONE then
      { s with
        lockAcqs := s.lockAcqs + 1,
        computeCalls := s.computeCalls + 1,
        computeUnderLockCalls := s.computeUnderLockCalls + 1,
        mateStore := s.mateStore.set idx { mate with pending_state := pol mate },
        mates_to_update :=
          if pol mate = Intent.NONE then s.mates_to_update
          else insertStaged idx s.mates_to_update,
        mates_msg :=
          if pol mate = Intent.MATED ∧ pub = true then
            s.mates_msg ++ [(mate.femaleLink, mate.maleLink)]
          else s.mates_msg }
    else s

/-- Line 410 plus the pair body: incompatible pairs (different mate models)
are skipped; otherwise look up or create the Mate and run the staging
phase on it. -/
def processPair (pol : MateR → Intent) (pub : Bool) (fa : AtomR) (fmp : MatePt)
    (ma : AtomR) (mmp : MatePt) (s : Soup) : Soup :=
  if fmp.mtype ≠ mmp.mtype then s
  else stagePhase pol pub (lookupOrCreate fa ma fmp mmp s).1 (lookupOrCreate fa ma fmp mmp s).2

/-- The quadruple loop of getStateUpdates (lines 359-407): every female mate
point of every atom against every male mate point of every other atom. -/
def scanPairs (atoms : List AtomR) : List (AtomR × MatePt × AtomR × MatePt) :=
  atoms.flatMap (fun fa =>
    fa.femalePts.flatMap (fun fmp =>
      (atoms.filter (fun ma => ma.uid != fa.uid)).flatMap (fun ma =>
        ma.malePts.map (fun mmp => (fa, fmp, ma, mmp)))))

/-- AssemblySoup::getStateUpdates: one discovery cycle. The local MateList
message starts empty, every candidate pair is processed, and when
publication is enabled the accumulated message is published at the end
(lines 595-597). -/
def getStateUpdates (pol : MateR → Intent) (pub : Bool) (atoms : List AtomR)
    (s : Soup) : Soup :=
  let s1 := (scanPairs atoms).foldl
    (fun acc q => processPair pol pub q.1 q.2.1 q.2.2.1 q.2.2.2 acc)
    { s with mates_msg := [] }
  if pub = true then { s1 with lastPublished := some s1.mates_msg } else s1

/-- Modelled from the spec: MateModel::updateState (models.h is absent) —
applies the staged transition by attaching or detaching the joint, updates
the discrete state accordingly and clears the pending state. -/
def updateState (m : MateR) : MateR :=
  match m.pending_state with
  | Intent.NONE => m
  | Intent.MATED =>
    { m with state := MState.MATED, jointAttached := true,
             pending_state := Intent.NONE }
  | Intent.UNMATED =>
    { m with state := MState.DETACHED, jointAttached := false,
             pending_state := Intent.NONE }

/-- One iteration of the attach/detach loop in OnUpdate: update the state of
the staged mate (a no-op on an index that refers to no stored mate). -/
def applyOne (store : List MateR) (idx : Nat) : List MateR :=
  match store[idx]? with
  | none => store
  | some m => store.set idx (updateState m)

/-- Lines 641-652, taken branch: with the try-lock acquired, update the state
of every staged mate and clear the staged set. -/
def applyStaged (s : Soup) : Soup :=
  { s with
    mateStore := s.mates_to_update.foldl applyOne s.mateStore,
    mates_to_update := [] }

/-- Lines 654-661: the per-tick update loop iterates the member set mates_
and calls MateModel::update on each element; update (models.h absent) is
modelled from the spec as continuous bookkeeping that requests no discrete
transition, so the embedding records only which mates were visited. -/
def perTickAll (s : Soup) : Soup :=
  { s with perTickCalls := s.perTickCalls ++ s.mates_set }

/-- AssemblySoup::OnUpdate (lines 630-663): start the discovery thread on the
first tick, try-lock the mutex — modelled by the lockAvailable input, of
which the handler is a total function, so it never waits — apply and clear
the staged transitions only when the lock was acquired, then run the
per-tick update loop. -/
def OnUpdate (lockAvailable : Bool) (s : Soup) : Soup :=
  let s1 := if s.running = false then { s with running := true } else s
  perTickAll (if lockAvailable = true then applyStaged s1 else s1)

/-- One observable operation of the two-thread system: a discovery cycle
(with its policy, publication flag and atom snapshot) or a simulation tick
(with the try-lock outcome). -/
inductive SoupOp
  | scan (pol : MateR → Intent) (pub : Bool) (atoms : List AtomR)
  | tick (lockAvailable : Bool)

/-- Interleaving step. -/
def stepOp (s : Soup) (op : SoupOp) : Soup :=
  match op with
  | SoupOp.scan pol pub atoms => getStateUpdates pol pub atoms s
  | SoupOp.tick l => OnUpdate l s

/-- A whole execution: any interleaving of discovery cycles and ticks. -/
def runOps (ops : List SoupOp) (s : Soup) : Soup :=
  ops.foldl stepOp s

/-! Load-time model: symmetry expansion, mate point declarations and the
mate_model registration loop of AssemblySoup::Load. -/

/-- A symmetry transform: either the implicitly added identity KDL::Frame(),
or the frame with rotation RotX(ix·2π∕nx)·RotY(iy·2π∕ny)·RotZ(iz·2π∕nz) and
zero translation pushed by the triple loop. Rotations are kept symbolic:
the claims concern counts and composition structure. -/
inductive Frame3
  | identityF
  | symRot (ix nx iy ny iz nz : Nat)
deriving DecidableEq

/-- Poses as free composition terms: a declared local pose, or the
composition computed at line 282 as mate_point->pose = base_pose * sym. -/
inductive PoseE
  | declared (tag : String)
  | comp (base : PoseE) (sym : Frame3)
deriving DecidableEq

/-- Lines 217-229: the triple loop over ix < nx, iy < ny, iz < nz pushing
Frame(Rx·Ry·Rz, 0) onto the symmetry list (for integer axis divisions the
floating loop runs exactly nx, ny, nz times). -/
def computeSymmetries (nx ny nz : Nat) : List Frame3 :=
  (List.range nx).flatMap (fun ix =>
    (List.range ny).flatMap (fun iy =>
      (List.range nz).map (fun iz => Frame3.symRot ix nx iy ny iz nz)))

/-- Lines 202-239: the symmetry list computed from the declared rot spec
(none when no rot element is given), with the identity appended afterwards
when and only when the list came out empty. -/
def loadedSymmetries (rotSpec : Option (Nat × Nat × Nat)) : List Frame3 :=
  let syms :=
    match rotSpec with
    | none => []
    | some (nx, ny, nz) => computeSymmetries nx ny nz
  if syms.length = 0 then [Frame3.identityF] else syms

/-- The per-point instance count asserted by the claim, stated from the
spec words: nx·ny·nz with an unspecified (zero) axis counted as 1. -/
def claimSymCount (nx ny nz : Nat) : Nat :=
  (if nx = 0 then 1 else nx) * (if ny = 0 then 1 else ny) *
    (if nz = 0 then 1 else nz)

/-- One mate_point element of an atom_model: its gender and type attributes
and declared local pose. -/
structure MPDecl where
  gender : String
  mtype : String
  pose : PoseE
deriving DecidableEq

/-- One instantiated MatePoint of an atom model. -/
structure MPInst where
  ptId : Nat
  mtype : String
  pose : PoseE
deriving DecidableEq

/-- An AtomModel being built: the two ordered mate point collections plus a
count of the "Unknown gender" errors logged at line 303. -/
structure AModel where
  female_mate_points : List MPInst
  male_mate_points : List MPInst
  genderErrors : Nat
deriving DecidableEq

def emptyAModel : AModel :=
  { female_mate_points := [], male_mate_points := [], genderErrors := 0 }

/-- ASCII lower-casing of one character code. -/
def lowerCode (n : Nat) : Nat :=
  if 65 ≤ n ∧ n ≤ 90 then n + 32 else n

/-- boost::iequals — ASCII case-insensitive string equality. -/
def iequals (a b : String) : Bool :=
  a.data.map (fun c => lowerCode c.toNat) == b.data.map (fun c => lowerCode c.toNat)

/-- Lines 280-289: push one female MatePoint for one symmetry transform,
with pose = base∘sym and id = current female count + male count. -/
def addFemaleForSym (t : String) (base : PoseE) (am : AModel) (sym : Frame3) :
    AModel :=
  { am with
    female_mate_points := am.female_mate_points ++
      [{ ptId := am.female_mate_points.length + am.male_mate_points.length,
         mtype := t,
         pose := PoseE.comp base sym }] }

/-- Lines 275-304: process one mate_point declaration. Female: one instance
per symmetry transform of its mate model; male: exactly one instance at the
declared pose; any other gender: log an error and create nothing — the
loop then continues with the next element. -/
def addMatePointDecl (symsOf : String → List Frame3) (am : AModel) (d : MPDecl) :
    AModel :=
  if iequals d.gender "female" then
    (symsOf d.mtype).foldl (addFemaleForSym d.mtype d.pose) am
  else if iequals d.gender "male" then
    { am with
      male_mate_points := am.male_mate_points ++
        [{ ptId := am.female_mate_points.length + am.male_mate_points.length,
           mtype := d.mtype,
           pose := d.pose }] }
  else
    { am with genderErrors := am.genderErrors + 1 }

/-- The mate_point loop of one atom_model element (lines 259-308). -/
def processDecls (symsOf : String → List Frame3) (decls : List MPDecl)
    (am : AModel) : AModel :=
  decls.foldl (addMatePointDecl symsOf) am

/-- The atom_model loop (lines 252-315): every atom model element is
processed and registered; the loop never aborts. -/
def loadAtomModels (symsOf : String → List Frame3)
    (ams : List (String × List MPDecl)) : List (String × AModel) :=
  ams.map (fun a => (a.1, processDecls symsOf a.2 emptyAModel))

/-- The sequence of female instances appended for one female declaration:
one instance per symmetry, pose = base∘sym, ids assigned sequentially from
the running count n. -/
def expandList (t : String) (base : PoseE) : List Frame3 → Nat → List MPInst
  | [], _ => []
  | sym :: rest, n =>
    { ptId := n, mtype := t, pose := PoseE.comp base sym } ::
      expandList t base rest (n + 1)

/-- One mate_model element: its model and type attributes (none when the
attribute is absent). -/
structure MateModelElem where
  modelAttr : Option String
  typeAttr : Option String
deriving DecidableEq

/-- The valid mate model dispatch of lines 186-193. -/
def validModel (m : String) : Bool :=
  m == "proximity" || m == "dipole"

/-- Lines 160-247: the mate_model registration loop. Returns the registered
type names and false when the loop returned early: missing model attribute,
missing type attribute, or an invalid model name for a type not yet
registered — an element whose type is already registered skips the model
dispatch (and its validation) entirely. -/
def loadMateModels : List MateModelElem → List String → List String × Bool
  | [], acc => (acc, true)
  | e :: rest, acc =>
    match e.modelAttr with
    | none => (acc, false)
    | some m =>
      match e.typeAttr with
      | none => (acc, false)
      | some t =>
        if acc.contains t then loadMateModels rest acc
        else if validModel m then loadMateModels rest (acc ++ [t])
        else (acc, false)

/-- What Load left registered when it returned. -/
structure LoadOutcome where
  mate_models : List String
  atoms_registered : Bool
  atom_model_types : List String
  connection_registered : Bool
deriving DecidableEq

/-- AssemblySoup::Load (lines 118-350): the mate_model loop runs first; an
early return there skips atom-model parsing, atom registration and the
ConnectWorldUpdateBegin subscription; otherwise atom models, atoms and the
world-update connection are registered. -/
def LoadPlugin (elems : List MateModelElem) (symsOf : String → List Frame3)
    (ams : List (String × List MPDecl)) : LoadOutcome :=
  match loadMateModels elems [] with
  | (ms, false) =>
    { mate_models := ms, atoms_registered := false, atom_model_types := [],
      connection_registered := false }
  | (ms, true) =>
    { mate_models := ms, atoms_registered := true,
      atom_model_types := (loadAtomModels symsOf ams).map (fun a => a.1),
      connection_registered := true }

/-! Concrete demonstration scene: two atoms, one female point on the first,
one male point on the second, sharing the mate type "peg". -/

def demoFPt : MatePt := { uid := 0, ptId := 0, mtype := "peg" }

def demoMPt : MatePt := { uid := 1, ptId := 0, mtype := "peg" }

def demoFA : AtomR :=
  { uid := 0, linkName := "female_atom", femalePts := [demoFPt], malePts := [] }

def demoMA : AtomR :=
  { uid := 1, linkName := "male_atom", femalePts := [], malePts := [demoMPt] }

def demoAtoms : List AtomR := [demoFA, demoMA]

/-- One discovery cycle over the demo scene in which the policy stages a
MATED transition for the single candidate pair. -/
def demoStaged : Soup :=
  getStateUpdates (fun _ => Intent.MATED) false demoAtoms initSoup

/-- One discovery cycle over the demo scene in which the policy reports
NoChange for the single candidate pair. -/
def demoIdle : Soup :=
  getStateUpdates (fun _ => Intent.NONE) false demoAtoms initSoup

/-- The single Mate record present in demoIdle. -/
def demoIdleMate : MateR :=
  { female_pt := 0, male_pt := 1, femaleLink := "female_atom",
    maleLink := "male_atom", pending_state := Intent.NONE,
    state := MState.DETACHED, jointConstructed := true, jointAttached := false }

/-- The single Mate record present in demoStaged. -/
def demoStagedMate : MateR :=
  { female_pt := 0, male_pt := 1, femaleLink := "female_atom",
    maleLink := "male_atom", pending_state := Intent.MATED,
    state := MState.DETACHED, jointConstructed := true, jointAttached := false }

/-! Helper lemmas: lists and the two-level mate table. -/

theorem lgetlt {α : Type} {l : List α} {i : Nat} {a : α}
    (h : l[i]? = some a) : i < l.length :=
  (List.getElem?_eq_some_iff.mp h).1

theorem lget_append_some {α : Type} {l : List α} {i : Nat} {a : α}
    (h : l[i]? = some a) (l2 : List α) : (l ++ l2)[i]? = some a := by
  rw [List.getElem?_append_left (lgetlt h)]
  exact h

theorem lget_set_self {α : Type} {l : List α} {i : Nat} {b : α}
    (h : l[i]? = some b) (a : α) : (l.set i a)[i]? = some a := by
  rw [List.getElem?_set_self (lgetlt h)]

theorem sum_map_const {α : Type} (l : List α) (c : Nat) :
    (l.map (fun _ => c)).sum = l.length * c := by
  induction l with
  | nil => simp
  | cons x xs ih => simp [ih, Nat.succ_mul, Nat.add_comm]

theorem entryGet_entrySet_self (row : List (Nat × Nat)) (m v : Nat) :
    entryGet (entrySet row m v) m = some v := by
  induction row with
  | nil => simp [entrySet, entryGet]
  | cons p rest ih =>
    by_cases h : p.1 = m
    · simp [entrySet, entryGet, h]
    · simp [entrySet, entryGet, h, ih]

theorem entryGet_entrySet_ne (row : List (Nat × Nat)) {m n : Nat} (v : Nat)
    (h : m ≠ n) : entryGet (entrySet row m v) n = entryGet row n := by
  induction row with
  | nil => simp [entrySet, entryGet, h]
  | cons p rest ih =>
    by_cases hp : p.1 = m
    · simp [entrySet, entryGet, hp, h, ih]
    · simp only [entrySet, hp, if_false]
      by_cases hq : p.1 = n
      · simp [entryGet, hq]
      · simp [entryGet, hq, ih]

theorem rowGet_rowSet_self (t : List (Nat × List (Nat × Nat))) (f : Nat)
    (r : List (Nat × Nat)) : rowGet (rowSet t f r) f = some r := by
  induction t with
  | nil => simp [rowSet, rowGet]
  | cons p rest ih =>
    by_cases h : p.1 = f
    · simp [rowSet, rowGet, h]
    · simp [rowSet, rowGet, h, ih]

theorem rowGet_rowSet_ne (t : List (Nat × List (Nat × Nat))) {f g : Nat}
    (r : List (Nat × Nat)) (h : f ≠ g) :
    rowGet (rowSet t f r) g = rowGet t g := by
  induction t with
  | nil => simp [rowSet, rowGet, h]
  | cons p rest ih =>
    by_cases hp : p.1 = f
    · simp [rowSet, rowGet, hp, h, ih]
    · simp only [rowSet, hp, if_false]
      by_cases hq : p.1 = g
      · simp [rowGet, hq]
      · simp [rowGet, hq, ih]

/-! Helper lemmas: lookupOrCreate. -/

theorem tblFind_row_none {t : List (Nat × List (Nat × Nat))} {f : Nat}
    (h : rowGet t f = none) (m : Nat) : tblFind t f m = none := by
  simp [tblFind, h]

theorem tblFind_row_some {t : List (Nat × List (Nat × Nat))} {f : Nat}
    {row : List (Nat × Nat)} (h : rowGet t f = some row) (m : Nat) :
    tblFind t f m = entryGet row m := by
  simp [tblFind, h]

theorem lookupOrCreate_found {fa ma : AtomR} {fmp mmp : MatePt} {s : Soup}
    {idx : Nat} (h : tblFind s.mate_table fmp.uid mmp.uid = some idx) :
    lookupOrCreate fa ma fmp mmp s = (idx, s) := by
  cases hrow : rowGet s.mate_table fmp.uid with
  | none => rw [tblFind_row_none hrow] at h; exact absurd h (by simp)
  | some row =>
    rw [tblFind_row_some hrow] at h
    simp [lookupOrCreate, hrow, h]

theorem lookupOrCreate_miss {fa ma : AtomR} {fmp mmp : MatePt} {s : Soup}
    (h : tblFind s.mate_table fmp.uid mmp.uid = none) :
    (lookupOrCreate fa ma fmp mmp s).1 = s.mateStore.length
    ∧ (lookupOrCreate fa ma fmp mmp s).2.mateStore
        = s.mateStore ++ [mkMate fmp mmp fa ma]
    ∧ (lookupOrCreate fa ma fmp mmp s).2.creations
        = s.creations ++ [(fmp.uid, mmp.uid)]
    ∧ (lookupOrCreate fa ma fmp mmp s).2.jointsCreated = s.jointsCreated + 1
    ∧ tblFind (lookupOrCreate fa ma fmp mmp s).2.mate_table fmp.uid mmp.uid
        = some s.mateStore.length
    ∧ (∀ f m : Nat, ¬(f = fmp.uid ∧ m = mmp.uid) →
        tblFind (lookupOrCreate fa ma fmp mmp s).2.mate_table f m
          = tblFind s.mate_table f m)
    ∧ (lookupOrCreate fa ma fmp mmp s).2.mates_to_update = s.mates_to_update
    ∧ (lookupOrCreate fa ma fmp mmp s).2.mates_msg = s.mates_msg
    ∧ (lookupOrCreate fa ma fmp mmp s).2.lockAcqs = s.lockAcqs
    ∧ (lookupOrCreate fa ma fmp mmp s).2.computeCalls = s.computeCalls
    ∧ (lookupOrCreate fa ma fmp mmp s).2.computeUnderLockCalls
        = s.computeUnderLockCalls := by
  cases hrow : rowGet s.mate_table fmp.uid with
  | none =>
    refine ⟨by simp [lookupOrCreate, hrow], by simp [lookupOrCreate, hrow],
      by simp [lookupOrCreate, hrow], by simp [lookupOrCreate, hrow], ?_, ?_,
      by simp [lookupOrCreate, hrow], by simp [lookupOrCreate, hrow],
      by simp [lookupOrCreate, hrow], by simp [lookupOrCreate, hrow],
      by simp [lookupOrCreate, hrow]⟩
    · simp only [lookupOrCreate, hrow]
      rw [tblFind_row_some (rowGet_rowSet_self _ _ _)]
      simp [entryGet]
    · intro f m hne
      simp only [lookupOrCreate, hrow]
      by_cases hf : f = fmp.uid
      · subst hf
        have hm : m ≠ mmp.uid := fun hm => hne ⟨rfl, hm⟩
        rw [tblFind_row_some (rowGet_rowSet_self _ _ _), tblFind_row_none hrow]
        simp only [entryGet, ite_eq_right_iff]
        intro hx
        exact absurd hx.symm hm
      · rw [tblFind]
        rw [rowGet_rowSet_ne _ _ (fun hx => hf hx.symm)]
        rw [tblFind]
  | some row =>
    have hent : entryGet row mmp.uid = none := by
      rw [tblFind_row_some hrow] at h; exact h
    refine ⟨by simp [lookupOrCreate, hrow, hent], by simp [lookupOrCreate, hrow, hent],
      by simp [lookupOrCreate, hrow, hent], by simp [lookupOrCreate, hrow, hent], ?_, ?_,
      by simp [lookupOrCreate, hrow, hent], by simp [lookupOrCreate, hrow, hent],
      by simp [lookupOrCreate, hrow, hent], by simp [lookupOrCreate, hrow, hent],
      by simp [lookupOrCreate, hrow, hent]⟩
    · simp only [lookupOrCreate, hrow, hent]
      rw [tblFind_row_some (rowGet_rowSet_self _ _ _)]
      exact entryGet_entrySet_self _ _ _
    · intro f m hne
      simp only [lookupOrCreate, hrow, hent]
      by_cases hf : f = fmp.uid
      · subst hf
        have hm : m ≠ mmp.uid := fun hm => hne ⟨rfl, hm⟩
        rw [tblFind_row_some (rowGet_rowSet_self _ _ _), tblFind_row_some hrow]
        exact entryGet_entrySet_ne _ _ (fun hx => hm hx.symm)
      · rw [tblFind]
        rw [rowGet_rowSet_ne _ _ (fun hx => hf hx.symm)]
        rw [tblFind]

/-! Helper lemmas: stagePhase. -/

theorem stagePhase_no_mate {pol : MateR → Intent} {pub : Bool} {idx : Nat}
    {s : Soup} (h : s.mateStore[idx]? = none) :
    stagePhase pol pub idx s = s := by
  simp [stagePhase, h]

theorem stagePhase_skip {pol : MateR → Intent} {pub : Bool} {idx : Nat}
    {s : Soup} {mate : MateR} (h : s.mateStore[idx]? = some mate)
    (hp : mate.pending_state ≠ Intent.NONE) :
    stagePhase pol pub idx s = s := by
  simp [stagePhase, h, hp]

theorem stagePhase_go {pol : MateR → Intent} {pub : Bool} {idx : Nat}
    {s : Soup} {mate : MateR} (h : s.mateStore[idx]? = some mate)
    (hp : mate.pending_state = Intent.NONE) :
    stagePhase pol pub idx s =
      { s with
        lockAcqs := s.lockAcqs + 1,
        computeCalls := s.computeCalls + 1,
        computeUnderLockCalls := s.computeUnderLockCalls + 1,
        mateStore := s.mateStore.set idx { mate with pending_state := pol mate },
        mates_to_update :=
          if pol mate = Intent.NONE then s.mates_to_update
          else insertStaged idx s.mates_to_update,
        mates_msg :=
          if pol mate = Intent.MATED ∧ pub = true then
            s.mates_msg ++ [(mate.femaleLink, mate.maleLink)]
          else s.mates_msg } := by
  simp [stagePhase, h, hp]

theorem stagePhase_fixed_fields (pol : MateR → Intent) (pub : Bool) (idx : Nat)
    (s : Soup) :
    (stagePhase pol pub idx s).mate_table = s.mate_table
    ∧ (stagePhase pol pub idx s).creations = s.creations
    ∧ (stagePhase pol pub idx s).jointsCreated = s.jointsCreated
    ∧ (stagePhase pol pub idx s).mates_set = s.mates_set
    ∧ (stagePhase pol pub idx s).running = s.running
    ∧ (stagePhase pol pub idx s).lastPublished = s.lastPublished
    ∧ (stagePhase pol pub idx s).perTickCalls = s.perTickCalls := by
  cases h : s.mateStore[idx]? with
  | none => rw [stagePhase_no_mate h]; exact ⟨rfl, rfl, rfl, rfl, rfl, rfl, rfl⟩
  | some mate =>
    by_cases hp : mate.pending_state = Intent.NONE
    · rw [stagePhase_go h hp]; exact ⟨rfl, rfl, rfl, rfl, rfl, rfl, rfl⟩
    · rw [stagePhase_skip h hp]; exact ⟨rfl, rfl, rfl, rfl, rfl, rfl, rfl⟩

theorem stagePhase_store_forward {pol : MateR → Intent} {pub : Bool}
    {idx : Nat} {s : Soup} {j : Nat} {mm : MateR}
    (h : s.mateStore[j]? = some mm) :
    ∃ mm2 : MateR, (stagePhase pol pub idx s).mateStore[j]? = some mm2
      ∧ mm2.jointConstructed = mm.jointConstructed := by
  cases hidx : s.mateStore[idx]? with
  | none => rw [stagePhase_no_mate hidx]; exact ⟨mm, h, rfl⟩
  | some mate =>
    by_cases hp : mate.pending_state = Intent.NONE
    · rw [stagePhase_go hidx hp]
      by_cases hj : j = idx
      · subst hj
        have hmm : mm = mate := by rw [h] at hidx; exact Option.some.inj hidx
        subst hmm
        exact ⟨{ mm with pending_state := pol mm },
          lget_set_self h _, rfl⟩
      · exact ⟨mm, by rw [List.getElem?_set_ne (fun hx => hj hx.symm)]; exact h, rfl⟩
    · rw [stagePhase_skip hidx hp]; exact ⟨mm, h, rfl⟩

/-! Helper lemmas: processPair and the system invariant. -/

theorem processPair_incompat {pol : MateR → Intent} {pub : Bool} {fa : AtomR}
    {fmp : MatePt} {ma : AtomR} {mmp : MatePt} {s : Soup}
    (h : fmp.mtype ≠ mmp.mtype) :
    processPair pol pub fa fmp ma mmp s = s := by
  simp [processPair, h]

theorem processPair_compat {pol : MateR → Intent} {pub : Bool} {fa : AtomR}
    {fmp : MatePt} {ma : AtomR} {mmp : MatePt} {s : Soup}
    (h : fmp.mtype = mmp.mtype) :
    processPair pol pub fa fmp ma mmp s =
      stagePhase pol pub (lookupOrCreate fa ma fmp mmp s).1
        (lookupOrCreate fa ma fmp mmp s).2 := by
  simp [processPair, h]

/-- The global invariant tying the creation log, the mate table and the
store together: each (female, male) pair was created at most once, a
created pair is present in the table, and every table entry refers to a
stored Mate whose joint has been constructed; the number of joint
constructions equals the number of Mate creations. -/
def soupInv (s : Soup) : Prop :=
  (∀ f m : Nat, s.creations.count (f, m) ≤ 1)
  ∧ (∀ f m : Nat, 0 < s.creations.count (f, m) →
      (tblFind s.mate_table f m).isSome = true)
  ∧ (∀ f m idx : Nat, tblFind s.mate_table f m = some idx →
      ∃ mm : MateR, s.mateStore[idx]? = some mm ∧ mm.jointConstructed = true)
  ∧ s.jointsCreated = s.creations.length

theorem soupInv_init : soupInv initSoup := by
  refine ⟨?_, ?_, ?_, rfl⟩
  · intro f m; simp [initSoup]
  · intro f m h; simp [initSoup] at h
  · intro f m idx h; simp [initSoup, tblFind, rowGet] at h

theorem lookupOrCreate_inv {fa ma : AtomR} {fmp mmp : MatePt} {s : Soup}
    (h : soupInv s) : soupInv (lookupOrCreate fa ma fmp mmp s).2 := by
  obtain ⟨h1, h2, h3, h4⟩ := h
  cases hfind : tblFind s.mate_table fmp.uid mmp.uid with
  | some idx =>
    rw [lookupOrCreate_found hfind]
    exact ⟨h1, h2, h3, h4⟩
  | none =>
    obtain ⟨-, hstore, hcre, hjc, hnew, hold, -⟩ :=
      @lookupOrCreate_miss fa ma fmp mmp s hfind
    have hcount : ∀ f m : Nat,
        (lookupOrCreate fa ma fmp mmp s).2.creations.count (f, m)
          = s.creations.count (f, m)
            + (if (fmp.uid, mmp.uid) = (f, m) then 1 else 0) := by
      intro f m
      rw [hcre, List.count_append]
      simp [List.count_singleton]
    have hzero : s.creations.count (fmp.uid, mmp.uid) = 0 := by
      by_contra hc
      have := h2 fmp.uid mmp.uid (Nat.pos_of_ne_zero hc)
      rw [hfind] at this
      simp at this
    refine ⟨?_, ?_, ?_, ?_⟩
    · intro f m
      rw [hcount]
      by_cases hkey : (fmp.uid, mmp.uid) = (f, m)
      · have : f = fmp.uid ∧ m = mmp.uid := by
          obtain ⟨hh1, hh2⟩ := Prod.mk.injEq _ _ _ _ ▸ hkey
          exact ⟨hh1.symm, hh2.symm⟩
        obtain ⟨hf, hm⟩ := this
        subst hf; subst hm
        simp [hzero, hkey]
      · simp [hkey, h1 f m]
    · intro f m hc
      by_cases hkey : f = fmp.uid ∧ m = mmp.uid
      · obtain ⟨hf, hm⟩ := hkey
        subst hf; subst hm
        rw [hnew]; rfl
      · rw [hold f m hkey]
        apply h2
        rw [hcount] at hc
        have hkey2 : ¬((fmp.uid, mmp.uid) = (f, m)) := by
          intro hx
          obtain ⟨hh1, hh2⟩ := Prod.mk.injEq _ _ _ _ ▸ hx
          exact hkey ⟨hh1.symm, hh2.symm⟩
        simpa [hkey2] using hc
    · intro f m idx hidx
      by_cases hkey : f = fmp.uid ∧ m = mmp.uid
      · obtain ⟨hf, hm⟩ := hkey
        subst hf; subst hm
        rw [hnew] at hidx
        have hidx2 : idx = s.mateStore.length := (Option.some.inj hidx).symm
        subst hidx2
        rw [hstore]
        exact ⟨mkMate fmp mmp fa ma, List.getElem?_concat_length _ _, rfl⟩
      · rw [hold f m hkey] at hidx
        obtain ⟨mm, hmm, hcon⟩ := h3 f m idx hidx
        rw [hstore]
        exact ⟨mm, lget_append_some hmm _, hcon⟩
    · rw [hjc, hcre, h4]
      simp

theorem stagePhase_inv {pol : MateR → Intent} {pub : Bool} {idx : Nat}
    {s : Soup} (h : soupInv s) : soupInv (stagePhase pol pub idx s) := by
  obtain ⟨h1, h2, h3, h4⟩ := h
  obtain ⟨htbl, hcre, hjc, -, -, -, -⟩ := stagePhase_fixed_fields pol pub idx s
  refine ⟨?_, ?_, ?_, ?_⟩
  · intro f m; rw [hcre]; exact h1 f m
  · intro f m hc; rw [htbl]; rw [hcre] at hc; exact h2 f m hc
  · intro f m i hidx
    rw [htbl] at hidx
    obtain ⟨mm, hmm, hcon⟩ := h3 f m i hidx
    obtain ⟨mm2, hmm2, hcon2⟩ :=
      @stagePhase_store_forward pol pub idx s _ _ hmm
    exact ⟨mm2, hmm2, by rw [hcon2, hcon]⟩
  · rw [hjc, hcre]; exact h4

theorem processPair_inv {pol : MateR → Intent} {pub : Bool} {fa : AtomR}
    {fmp : MatePt} {ma : AtomR} {mmp : MatePt} {s : Soup}
    (h : soupInv s) : soupInv (processPair pol pub fa fmp ma mmp s) := by
  by_cases hc : fmp.mtype = mmp.mtype
  · rw [processPair_compat hc]
    exact stagePhase_inv (lookupOrCreate_inv h)
  · rw [processPair_incompat hc]
    exact h

/-! Helper lemmas: OnUpdate, traces, entry stability. -/

theorem updateState_jointConstructed (m : MateR) :
    (updateState m).jointConstructed = m.jointConstructed := by
  cases h : m.pending_state <;> simp [updateState, h]

theorem applyOne_store_forward {store : List MateR} {a j : Nat} {mm : MateR}
    (h : store[j]? = some mm) :
    ∃ mm2 : MateR, (applyOne store a)[j]? = some mm2
      ∧ mm2.jointConstructed = mm.jointConstructed := by
  cases ha : store[a]? with
  | none => exact ⟨mm, by simp [applyOne, ha, h], rfl⟩
  | some m =>
    by_cases hj : j = a
    · subst hj
      have hmm : m = mm := Option.some.inj (ha ▸ h)
      subst hmm
      exact ⟨updateState m, by simp only [applyOne, ha]; exact lget_set_self h _,
        updateState_jointConstructed m⟩
    · exact ⟨mm, by
        simp only [applyOne, ha]
        rw [List.getElem?_set_ne (fun hx => hj hx.symm)]
        exact h, rfl⟩

theorem foldl_applyOne_forward {l : List Nat} :
    ∀ {store : List MateR} {j : Nat} {mm : MateR}, store[j]? = some mm →
      ∃ mm2 : MateR, (l.foldl applyOne store)[j]? = some mm2
        ∧ mm2.jointConstructed = mm.jointConstructed := by
  induction l with
  | nil => intro store j mm h; exact ⟨mm, h, rfl⟩
  | cons a rest ih =>
    intro store j mm h
    obtain ⟨mm2, hmm2, hcon2⟩ := @applyOne_store_forward _ a _ _ h
    obtain ⟨mm3, hmm3, hcon3⟩ := ih hmm2
    exact ⟨mm3, hmm3, by rw [hcon3, hcon2]⟩

theorem OnUpdate_fixed_fields (b : Bool) (s : Soup) :
    (OnUpdate b s).mate_table = s.mate_table
    ∧ (OnUpdate b s).creations = s.creations
    ∧ (OnUpdate b s).jointsCreated = s.jointsCreated
    ∧ (OnUpdate b s).mates_msg = s.mates_msg
    ∧ (OnUpdate b s).lastPublished = s.lastPublished
    ∧ (OnUpdate b s).mates_set = s.mates_set := by
  by_cases hr : s.running = false <;> cases b <;>
    simp [OnUpdate, perTickAll, applyStaged, hr]

theorem OnUpdate_inv {b : Bool} {s : Soup} (h : soupInv s) :
    soupInv (OnUpdate b s) := by
  obtain ⟨h1, h2, h3, h4⟩ := h
  obtain ⟨htbl, hcre, hjc, -, -, -⟩ := OnUpdate_fixed_fields b s
  have hstore : ∀ {j : Nat} {mm : MateR}, s.mateStore[j]? = some mm →
      ∃ mm2 : MateR, (OnUpdate b s).mateStore[j]? = some mm2
        ∧ mm2.jointConstructed = mm.jointConstructed := by
    intro j mm hj
    by_cases hr : s.running = false <;> cases b <;>
      simp only [OnUpdate, perTickAll, applyStaged, hr, if_true, if_false,
        reduceIte] <;>
      first
        | exact foldl_applyOne_forward hj
        | exact ⟨mm, hj, rfl⟩
  refine ⟨?_, ?_, ?_, ?_⟩
  · intro f m; rw [hcre]; exact h1 f m
  · intro f m hc; rw [htbl]; rw [hcre] at hc; exact h2 f m hc
  · intro f m idx hidx
    rw [htbl] at hidx
    obtain ⟨mm, hmm, hcon⟩ := h3 f m idx hidx
    obtain ⟨mm2, hmm2, hcon2⟩ := hstore hmm
    exact ⟨mm2, hmm2, by rw [hcon2, hcon]⟩
  · rw [hjc, hcre]; exact h4

theorem foldl_processPair_inv {pol : MateR → Intent} {pub : Bool}
    (l : List (AtomR × MatePt × AtomR × MatePt)) :
    ∀ {s : Soup}, soupInv s →
      soupInv (l.foldl
        (fun acc q => processPair pol pub q.1 q.2.1 q.2.2.1 q.2.2.2 acc) s) := by
  induction l with
  | nil => intro s h; exact h
  | cons q rest ih => intro s h; exact ih (processPair_inv h)

theorem soupInv_transport {s1 s2 : Soup} (h : soupInv s1)
    (ht : s2.mate_table = s1.mate_table) (hc : s2.creations = s1.creations)
    (hs : s2.mateStore = s1.mateStore) (hj : s2.jointsCreated = s1.jointsCreated) :
    soupInv s2 := by
  obtain ⟨h1, h2, h3, h4⟩ := h
  refine ⟨?_, ?_, ?_, ?_⟩
  · intro f m; rw [hc]; exact h1 f m
  · intro f m hcount; rw [ht]; rw [hc] at hcount; exact h2 f m hcount
  · intro f m idx hidx; rw [ht] at hidx; rw [hs]; exact h3 f m idx hidx
  · rw [hj, hc]; exact h4

theorem soupInv_setPublished {s : Soup} (h : soupInv s)
    (msg : List (String × String)) :
    soupInv { s with lastPublished := some msg } :=
  soupInv_transport h rfl rfl rfl rfl

theorem soupInv_resetMsg {s : Soup} (h : soupInv s) :
    soupInv { s with mates_msg := ([] : List (String × String)) } :=
  soupInv_transport h rfl rfl rfl rfl

theorem getStateUpdates_inv {pol : MateR → Intent} {pub : Bool}
    {atoms : List AtomR} {s : Soup} (h : soupInv s) :
    soupInv (getStateUpdates pol pub atoms s) := by
  have h1 := @foldl_processPair_inv pol pub
    (scanPairs atoms) _ (soupInv_resetMsg h)
  unfold getStateUpdates
  rcases Bool.eq_false_or_eq_true pub with hp | hp
  · subst hp
    simpa using h1
  · subst hp
    have h2 := soupInv_setPublished h1
      (((scanPairs atoms).foldl
        (fun acc q => processPair pol true q.1 q.2.1 q.2.2.1 q.2.2.2 acc)
        { s with mates_msg := ([] : List (String × String)) }).mates_msg)
    simpa using h2

theorem stepOp_inv {s : Soup} {op : SoupOp} (h : soupInv s) :
    soupInv (stepOp s op) := by
  cases op with
  | scan pol pub atoms => exact getStateUpdates_inv h
  | tick l => exact OnUpdate_inv h

theorem runOps_inv (ops : List SoupOp) :
    ∀ {s : Soup}, soupInv s → soupInv (runOps ops s) := by
  induction ops with
  | nil => intro s h; exact h
  | cons op rest ih =>
    intro s h
    exact ih (stepOp_inv h)

theorem lookupOrCreate_entry_stable {fa ma : AtomR} {fmp mmp : MatePt}
    {s : Soup} {f m idx : Nat} (h : tblFind s.mate_table f m = some idx) :
    tblFind (lookupOrCreate fa ma fmp mmp s).2.mate_table f m = some idx := by
  cases hfind : tblFind s.mate_table fmp.uid mmp.uid with
  | some i => rw [lookupOrCreate_found hfind]; exact h
  | none =>
    obtain ⟨-, -, -, -, -, hold, -⟩ :=
      @lookupOrCreate_miss fa ma fmp mmp s hfind
    by_cases hkey : f = fmp.uid ∧ m = mmp.uid
    · obtain ⟨hf, hm⟩ := hkey
      subst hf; subst hm
      rw [hfind] at h
      exact absurd h (by simp)
    · rw [hold f m hkey]; exact h

theorem processPair_entry_stable {pol : MateR → Intent} {pub : Bool}
    {fa : AtomR} {fmp : MatePt} {ma : AtomR} {mmp : MatePt} {s : Soup}
    {f m idx : Nat} (h : tblFind s.mate_table f m = some idx) :
    tblFind (processPair pol pub fa fmp ma mmp s).mate_table f m = some idx := by
  by_cases hc : fmp.mtype = mmp.mtype
  · rw [processPair_compat hc]
    obtain ⟨htbl, -⟩ := stagePhase_fixed_fields pol pub
      (lookupOrCreate fa ma fmp mmp s).1 (lookupOrCreate fa ma fmp mmp s).2
    rw [htbl]
    exact lookupOrCreate_entry_stable h
  · rw [processPair_incompat hc]; exact h

theorem foldl_processPair_entry_stable {pol : MateR → Intent} {pub : Bool}
    (l : List (AtomR × MatePt × AtomR × MatePt)) :
    ∀ {s : Soup} {f m idx : Nat}, tblFind s.mate_table f m = some idx →
      tblFind ((l.foldl
        (fun acc q => processPair pol pub q.1 q.2.1 q.2.2.1 q.2.2.2 acc)
        s)).mate_table f m = some idx := by
  induction l with
  | nil => intro s f m idx h; exact h
  | cons q rest ih => intro s f m idx h; exact ih (processPair_entry_stable h)

theorem stepOp_entry_stable {s : Soup} {op : SoupOp} {f m idx : Nat}
    (h : tblFind s.mate_table f m = some idx) :
    tblFind (stepOp s op).mate_table f m = some idx := by
  cases op with
  | scan pol pub atoms =>
    show tblFind (getStateUpdates pol pub atoms s).mate_table f m = some idx
    have h0 : tblFind ({ s with
        mates_msg := ([] : List (String × String)) }).mate_table f m = some idx := h
    have h1 := @foldl_processPair_entry_stable pol pub
      (scanPairs atoms) _ _ _ _ h0
    unfold getStateUpdates
    rcases Bool.eq_false_or_eq_true pub with hp | hp
    · subst hp
      simpa using h1
    · subst hp
      exact h1
  | tick l =>
    obtain ⟨htbl, -⟩ := OnUpdate_fixed_fields l s
    show tblFind (OnUpdate l s).mate_table f m = some idx
    rw [htbl]; exact h

theorem runOps_entry_stable (ops : List SoupOp) :
    ∀ {s : Soup} {f m idx : Nat}, tblFind s.mate_table f m = some idx →
      tblFind (runOps ops s).mate_table f m = some idx := by
  induction ops with
  | nil => intro s f m idx h; exact h
  | cons op rest ih => intro s f m idx h; exact ih (stepOp_entry_stable h)

/-! Helper lemmas: applying staged transitions (OnUpdate, lock acquired). -/

theorem applyOne_other {store : List MateR} {a j : Nat} (h : j ≠ a) :
    (applyOne store a)[j]? = store[j]? := by
  cases ha : store[a]? with
  | none => simp [applyOne, ha]
  | some m =>
    simp only [applyOne, ha]
    exact List.getElem?_set_ne (fun hx => h hx.symm)

theorem foldl_applyOne_not_mem {l : List Nat} :
    ∀ {store : List MateR} {j : Nat}, j ∉ l →
      (l.foldl applyOne store)[j]? = store[j]? := by
  induction l with
  | nil => intro store j _; rfl
  | cons a rest ih =>
    intro store j hj
    have hja : j ≠ a := fun hx => hj (hx ▸ List.mem_cons_self a rest)
    have hjr : j ∉ rest := fun hx => hj (List.mem_cons_of_mem a hx)
    rw [List.foldl_cons, ih hjr, applyOne_other hja]

theorem foldl_applyOne_mem {l : List Nat} :
    ∀ {store : List MateR} {j : Nat} {mm : MateR}, l.Nodup → j ∈ l →
      store[j]? = some mm →
      (l.foldl applyOne store)[j]? = some (updateState mm) := by
  induction l with
  | nil => intro store j mm _ hj; exact absurd hj (List.not_mem_nil j)
  | cons a rest ih =>
    intro store j mm hnd hj hstore
    rw [List.foldl_cons]
    rcases List.mem_cons.mp hj with hja | hjr
    · subst hja
      have hjrest : j ∉ rest := (List.nodup_cons.mp hnd).1
      rw [foldl_applyOne_not_mem hjrest]
      simp only [applyOne, hstore]
      exact lget_set_self hstore (updateState mm)
    · have hja : j ≠ a := by
        intro hx
        subst hx
        exact (List.nodup_cons.mp hnd).1 hjr
      exact ih (List.nodup_cons.mp hnd).2 hjr
        (by rw [applyOne_other hja]; exact hstore)

theorem OnUpdate_false_fields (s : Soup) :
    (OnUpdate false s).mates_to_update = s.mates_to_update
    ∧ (OnUpdate false s).mateStore = s.mateStore := by
  by_cases hr : s.running = false <;> simp [OnUpdate, perTickAll, hr]

theorem OnUpdate_true_fields (s : Soup) :
    (OnUpdate true s).mates_to_update = ([] : List Nat)
    ∧ (OnUpdate true s).mateStore = s.mates_to_update.foldl applyOne s.mateStore := by
  by_cases hr : s.running = false <;>
    simp [OnUpdate, perTickAll, applyStaged, hr]

/-! Helper lemmas: symmetry expansion and mate point declarations. -/

theorem sum_map_len {α β : Type} (l : List α) (f : α → List β) :
    (l.flatMap f).length = (l.map (fun a => (f a).length)).sum := by
  induction l with
  | nil => rfl
  | cons x xs ih => simp [List.flatMap_cons, ih]

theorem computeSymmetries_length (nx ny nz : Nat) :
    (computeSymmetries nx ny nz).length = nx * ny * nz := by
  unfold computeSymmetries
  rw [sum_map_len]
  simp only [sum_map_len, List.length_map, List.length_range, sum_map_const]
  rw [Nat.mul_assoc]

theorem loadedSymmetries_pos {nx ny nz : Nat} (h : 0 < nx * ny * nz) :
    loadedSymmetries (some (nx, ny, nz)) = computeSymmetries nx ny nz := by
  simp only [loadedSymmetries]
  rw [if_neg]
  rw [computeSymmetries_length]
  omega

theorem loadedSymmetries_zero {nx ny nz : Nat} (h : nx * ny * nz = 0) :
    loadedSymmetries (some (nx, ny, nz)) = [Frame3.identityF] := by
  simp only [loadedSymmetries]
  rw [if_pos]
  rw [computeSymmetries_length]
  exact h

theorem loadedSymmetries_none : loadedSymmetries none = [Frame3.identityF] := rfl

theorem expandList_length (t : String) (base : PoseE) (syms : List Frame3) :
    ∀ n : Nat, (expandList t base syms n).length = syms.length := by
  induction syms with
  | nil => intro n; rfl
  | cons sym rest ih => intro n; simp [expandList, ih]

theorem expandList_poses (t : String) (base : PoseE) (syms : List Frame3) :
    ∀ n : Nat, (expandList t base syms n).map (fun i => i.pose)
      = syms.map (fun sym => PoseE.comp base sym) := by
  induction syms with
  | nil => intro n; rfl
  | cons sym rest ih => intro n; simp [expandList, ih]

theorem foldl_addFemale (t : String) (base : PoseE) (syms : List Frame3) :
    ∀ am : AModel,
      (syms.foldl (addFemaleForSym t base) am).female_mate_points
        = am.female_mate_points ++ expandList t base syms
            (am.female_mate_points.length + am.male_mate_points.length)
      ∧ (syms.foldl (addFemaleForSym t base) am).male_mate_points
          = am.male_mate_points
      ∧ (syms.foldl (addFemaleForSym t base) am).genderErrors = am.genderErrors := by
  induction syms with
  | nil => intro am; simp [expandList]
  | cons sym rest ih =>
    intro am
    rw [List.foldl_cons]
    obtain ⟨ih1, ih2, ih3⟩ := ih (addFemaleForSym t base am sym)
    refine ⟨?_, by rw [ih2]; rfl, by rw [ih3]; rfl⟩
    rw [ih1]
    simp only [addFemaleForSym, List.length_append, List.length_cons,
      List.length_nil, expandList]
    rw [List.append_assoc]
    simp [List.singleton_append, Nat.add_comm, Nat.add_assoc, Nat.add_left_comm]

theorem iequals_female : iequals "female" "female" = true := by decide

theorem addMatePointDecl_female {symsOf : String → List Frame3} {am : AModel}
    {d : MPDecl} (h : iequals d.gender "female" = true) :
    addMatePointDecl symsOf am d
      = (symsOf d.mtype).foldl (addFemaleForSym d.mtype d.pose) am := by
  simp [addMatePointDecl, h]

/-! Claim theorems. -/

/-- C1: the claim says OnUpdate invokes the per-tick update on every Mate
currently in an active state. In the code the per-tick loop iterates the
member set mates_, into which nothing is ever inserted (the discovery loop
fills only mate_table_ and mates_to_update_), so a Mate created by
discovery and driven to the active Mated state never receives the call:
after one staging cycle and two ticks of the demo scene, the single Mate is
Mated yet the set of per-tick update calls is empty. -/
theorem C1_active_mate_missed_by_tick_loop :
    (OnUpdate true (OnUpdate true demoStaged)).mateStore.map (fun mm => mm.state)
      = [MState.MATED]
    ∧ (OnUpdate true (OnUpdate true demoStaged)).perTickCalls = []
    ∧ (OnUpdate true (OnUpdate true demoStaged)).mates_set = [] := by
  decide

/-- C2 counterexample: for symmetry spec (2, 0, 1) — one axis zero, i.e.
unspecified — the claim's count formula demands 2·1·1 = 2 female instances
per declared point, but the triple loop produces an empty list, the
identity is appended, and exactly 1 instance is generated. -/
theorem C2_counterexample :
    (addMatePointDecl (fun _ => loadedSymmetries (some (2, 0, 1))) emptyAModel
      { gender := "female", mtype := "peg",
        pose := PoseE.declared "p" }).female_mate_points.length = 1
    ∧ claimSymCount 2 0 1 = 2 := by
  decide

/-- C2 (amended): when all three axes are positive the loaded symmetry list
has exactly nx·ny·nz elements; when the product is zero (an axis
unspecified) or no symmetry is declared, the list is exactly the identity;
each declared female point is expanded into one instance per loaded
symmetry transform, appended in order with pose = declared pose ∘ transform
and sequential ids. -/
theorem C2_symmetry_expansion (nx ny nz : Nat) (t : String) (base : PoseE)
    (am : AModel) (symsOf : String → List Frame3)
    (hs : symsOf t = loadedSymmetries (some (nx, ny, nz))) :
    (0 < nx → 0 < ny → 0 < nz →
      (loadedSymmetries (some (nx, ny, nz))).length = nx * ny * nz)
    ∧ (nx * ny * nz = 0 →
      loadedSymmetries (some (nx, ny, nz)) = [Frame3.identityF])
    ∧ loadedSymmetries none = [Frame3.identityF]
    ∧ (addMatePointDecl symsOf am
        { gender := "female", mtype := t, pose := base }).female_mate_points
      = am.female_mate_points
        ++ expandList t base (loadedSymmetries (some (nx, ny, nz)))
          (am.female_mate_points.length + am.male_mate_points.length)
    ∧ (∀ (syms : List Frame3) (n : Nat),
        (expandList t base syms n).map (fun i => i.pose)
          = syms.map (fun sym => PoseE.comp base sym))
    ∧ (∀ (syms : List Frame3) (n : Nat),
        (expandList t base syms n).length = syms.length) := by
  refine ⟨?_, ?_, loadedSymmetries_none, ?_, ?_, ?_⟩
  · intro h1 h2 h3
    rw [loadedSymmetries_pos (Nat.mul_pos (Nat.mul_pos h1 h2) h3)]
    exact computeSymmetries_length nx ny nz
  · exact loadedSymmetries_zero
  · have hfem : addMatePointDecl symsOf am
        { gender := "female", mtype := t, pose := base }
        = (symsOf t).foldl (addFemaleForSym t base) am := by
      simp [addMatePointDecl, iequals_female]
    rw [hfem, hs]
    exact (foldl_addFemale t base _ am).1
  · intro syms n; exact expandList_poses t base syms n
  · intro syms n; exact expandList_length t base syms n

/-- C2 witness: the amended statement instantiated at symmetry spec
(2, 3, 1) on an empty atom model. -/
theorem C2_symmetry_expansion_witness :
    (loadedSymmetries (some (2, 3, 1))).length = 2 * 3 * 1
    ∧ (addMatePointDecl (fun _ => loadedSymmetries (some (2, 3, 1))) emptyAModel
        { gender := "female", mtype := "peg",
          pose := PoseE.declared "p" }).female_mate_points
      = emptyAModel.female_mate_points
        ++ expandList "peg" (PoseE.declared "p")
          (loadedSymmetries (some (2, 3, 1))) 0 := by
  have h := C2_symmetry_expansion 2 3 1 "peg" (PoseE.declared "p") emptyAModel
    (fun _ => loadedSymmetries (some (2, 3, 1))) rfl
  exact ⟨h.1 (by decide) (by decide) (by decide), h.2.2.2.1⟩

/-- C3: for the whole lifetime of the simulation — any interleaving of
discovery cycles and ticks from the freshly loaded state — every
(female point, male point) pair is created at most once, and an existing
mate-table entry is never replaced by any further operation, so repeated
discovery cycles re-scanning the pair reuse the stored Mate. -/
theorem C3_at_most_one_mate_per_pair (ops : List SoupOp) (f m : Nat) :
    (runOps ops initSoup).creations.count (f, m) ≤ 1
    ∧ (∀ (s : Soup) (more : List SoupOp) (idx : Nat),
        tblFind s.mate_table f m = some idx →
        tblFind (runOps more s).mate_table f m = some idx) := by
  refine ⟨(runOps_inv ops soupInv_init).1 f m, ?_⟩
  intro s more idx h
  exact runOps_entry_stable more h

/-- C3 witness: two discovery cycles over the demo scene create the pair
(0, 1) exactly once, and the entry created by the first cycle is still the
same Mate after the second. -/
theorem C3_at_most_one_mate_per_pair_witness :
    (runOps [SoupOp.scan (fun _ => Intent.MATED) false demoAtoms,
             SoupOp.scan (fun _ => Intent.MATED) false demoAtoms]
      initSoup).creations.count (0, 1) ≤ 1
    ∧ tblFind (runOps [SoupOp.scan (fun _ => Intent.NONE) false demoAtoms]
        demoIdle).mate_table 0 1 = some 0 := by
  refine ⟨(C3_at_most_one_mate_per_pair
    [SoupOp.scan (fun _ => Intent.MATED) false demoAtoms,
     SoupOp.scan (fun _ => Intent.MATED) false demoAtoms] 0 1).1, ?_⟩
  exact (C3_at_most_one_mate_per_pair [] 0 1).2 demoIdle
    [SoupOp.scan (fun _ => Intent.NONE) false demoAtoms] 0 (by decide)

/-- C4: when a pair's Mate already has a pending (non-NONE) transition, the
discovery loop skips it entirely: the state is unchanged, so in particular
getStateUpdate is not called again and no second transition is staged until
the tick handler has consumed the pending one. -/
theorem C4_pending_guard (pol : MateR → Intent) (pub : Bool) (fa : AtomR)
    (fmp : MatePt) (ma : AtomR) (mmp : MatePt) (s : Soup) (idx : Nat)
    (mate : MateR) (hc : fmp.mtype = mmp.mtype)
    (ht : tblFind s.mate_table fmp.uid mmp.uid = some idx)
    (hm : s.mateStore[idx]? = some mate)
    (hp : mate.pending_state ≠ Intent.NONE) :
    processPair pol pub fa fmp ma mmp s = s
    ∧ (processPair pol pub fa fmp ma mmp s).computeCalls = s.computeCalls
    ∧ (processPair pol pub fa fmp ma mmp s).mates_to_update
        = s.mates_to_update := by
  have h : processPair pol pub fa fmp ma mmp s = s := by
    rw [processPair_compat hc, lookupOrCreate_found ht]
    exact stagePhase_skip hm hp
  exact ⟨h, by rw [h], by rw [h]⟩

/-- C4 witness: in the staged demo state, re-scanning the pending pair with
a policy that would request UNMATED changes nothing. -/
theorem C4_pending_guard_witness :
    processPair (fun _ => Intent.UNMATED) false demoFA demoFPt demoMA demoMPt
      demoStaged = demoStaged := by
  exact (C4_pending_guard (fun _ => Intent.UNMATED) false demoFA demoFPt
    demoMA demoMPt demoStaged 0 demoStagedMate (by decide) (by decide)
    (by decide) (by decide)).1

/-- C5: the tick handler is a total function of the try-lock outcome (it
never waits): when the lock is unavailable it applies no staged transition
and leaves the staged set and the store unchanged; when the lock is
acquired it clears the staged set, every staged mate has its transition
applied (updateState), and non-staged mates are untouched. -/
theorem C5_nonblocking_tick (s : Soup) (idx : Nat) (mm : MateR) :
    ((OnUpdate false s).mates_to_update = s.mates_to_update
      ∧ (OnUpdate false s).mateStore = s.mateStore)
    ∧ (OnUpdate true s).mates_to_update = []
    ∧ (s.mates_to_update.Nodup → idx ∈ s.mates_to_update →
        s.mateStore[idx]? = some mm →
        (OnUpdate true s).mateStore[idx]? = some (updateState mm))
    ∧ (idx ∉ s.mates_to_update →
        (OnUpdate true s).mateStore[idx]? = s.mateStore[idx]?) := by
  refine ⟨OnUpdate_false_fields s, (OnUpdate_true_fields s).1, ?_, ?_⟩
  · intro hnd hmem hstore
    rw [(OnUpdate_true_fields s).2]
    exact foldl_applyOne_mem hnd hmem hstore
  · intro hmem
    rw [(OnUpdate_true_fields s).2]
    exact foldl_applyOne_not_mem hmem

/-- C5 witness: on the staged demo state, a contended tick changes neither
the staged set nor the store, and an uncontended tick clears the staged set
and applies the MATED transition to the staged mate. -/
theorem C5_nonblocking_tick_witness :
    (OnUpdate false demoStaged).mates_to_update = demoStaged.mates_to_update
    ∧ (OnUpdate true demoStaged).mates_to_update = []
    ∧ (OnUpdate true demoStaged).mateStore[0]?
        = some (updateState demoStagedMate) := by
  have h := C5_nonblocking_tick demoStaged 0 demoStagedMate
  exact ⟨h.1.1, h.2.1, h.2.2.1 (by decide) (by decide) (by decide)⟩

/-- C6 counterexample: the claim says the geometric computation runs
without the lock and the lock is taken only once per staged transition. In
the demo cycle whose policy reports NoChange, no transition is staged, yet
the mutex is acquired once and the single getStateUpdate call runs while
holding it — the lock is taken per scanned pair, not per staged transition. -/
theorem C6_counterexample :
    demoIdle.lockAcqs = 1
    ∧ demoIdle.mates_to_update.length = 0
    ∧ demoIdle.computeUnderLockCalls = 1
    ∧ demoIdle.computeCalls = 1
    ∧ ¬ demoIdle.lockAcqs ≤ demoIdle.mates_to_update.length := by
  decide

/-- C6 (amended): for each compatible candidate pair whose Mate has no
pending transition, the discovery loop acquires the shared-state mutex
exactly once and runs the geometric computation getStateUpdate while
holding it — one acquisition per scanned pair, with the computation inside
the critical section. -/
theorem C6_lock_held_per_scanned_pair (pol : MateR → Intent) (pub : Bool)
    (fa : AtomR) (fmp : MatePt) (ma : AtomR) (mmp : MatePt) (s : Soup)
    (idx : Nat) (mate : MateR) (hc : fmp.mtype = mmp.mtype)
    (ht : tblFind s.mate_table fmp.uid mmp.uid = some idx)
    (hm : s.mateStore[idx]? = some mate)
    (hp : mate.pending_state = Intent.NONE) :
    (processPair pol pub fa fmp ma mmp s).lockAcqs = s.lockAcqs + 1
    ∧ (processPair pol pub fa fmp ma mmp s).computeCalls = s.computeCalls + 1
    ∧ (processPair pol pub fa fmp ma mmp s).computeUnderLockCalls
        = s.computeUnderLockCalls + 1 := by
  rw [processPair_compat hc, lookupOrCreate_found ht, stagePhase_go hm hp]
  exact ⟨rfl, rfl, rfl⟩

/-- C6 witness: re-scanning the idle demo pair acquires the lock once more
and runs the computation under it. -/
theorem C6_lock_held_per_scanned_pair_witness :
    (processPair (fun _ => Intent.NONE) false demoFA demoFPt demoMA demoMPt
      demoIdle).lockAcqs = demoIdle.lockAcqs + 1
    ∧ (processPair (fun _ => Intent.NONE) false demoFA demoFPt demoMA demoMPt
      demoIdle).computeUnderLockCalls = demoIdle.computeUnderLockCalls + 1 := by
  have h := C6_lock_held_per_scanned_pair (fun _ => Intent.NONE) false demoFA
    demoFPt demoMA demoMPt demoIdle 0 demoIdleMate (by decide) (by decide)
    (by decide) (by decide)
  exact ⟨h.1, h.2.2⟩

/-- C7: a Mate's joint is constructed exactly once, at Mate construction,
and is initially detached; over any execution from the loaded state the
number of joint constructions equals the number of Mate creations, and
every mate-table entry refers to a stored Mate whose joint has been
constructed. -/
theorem C7_joint_constructed_once (ops : List SoupOp) (fmp mmp : MatePt)
    (fa ma : AtomR) :
    (mkMate fmp mmp fa ma).jointConstructed = true
    ∧ (mkMate fmp mmp fa ma).jointAttached = false
    ∧ (runOps ops initSoup).jointsCreated = (runOps ops initSoup).creations.length
    ∧ (∀ f m idx : Nat,
        tblFind (runOps ops initSoup).mate_table f m = some idx →
        ∃ mm : MateR, (runOps ops initSoup).mateStore[idx]? = some mm
          ∧ mm.jointConstructed = true) := by
  obtain ⟨-, -, h3, h4⟩ := runOps_inv ops soupInv_init
  exact ⟨rfl, rfl, h4, h3⟩

/-- C7 witness: after one demo discovery cycle, exactly one joint was
constructed for the one creation, and the table entry (0, 1) refers to a
stored Mate with a constructed joint. -/
theorem C7_joint_constructed_once_witness :
    (mkMate demoFPt demoMPt demoFA demoMA).jointAttached = false
    ∧ (runOps [SoupOp.scan (fun _ => Intent.MATED) false demoAtoms]
        initSoup).jointsCreated
      = (runOps [SoupOp.scan (fun _ => Intent.MATED) false demoAtoms]
        initSoup).creations.length
    ∧ ∃ mm : MateR,
        (runOps [SoupOp.scan (fun _ => Intent.MATED) false demoAtoms]
          initSoup).mateStore[0]? = some mm ∧ mm.jointConstructed = true := by
  have h := C7_joint_constructed_once
    [SoupOp.scan (fun _ => Intent.MATED) false demoAtoms] demoFPt demoMPt
    demoFA demoMA
  exact ⟨h.2.1, h.2.2.1, h.2.2.2 0 1 0 (by decide)⟩

/-- C8 counterexample: the claim says the published list contains exactly
the Mates whose current state is Mated. In the demo cycle with publication
enabled and a policy that requests MATED, the published MateList names the
pair although the stored Mate's state is still DETACHED at publication
time (the transition has only been staged, not applied). -/
theorem C8_counterexample :
    (getStateUpdates (fun _ => Intent.MATED) true demoAtoms
      initSoup).lastPublished = some [("female_atom", "male_atom")]
    ∧ (getStateUpdates (fun _ => Intent.MATED) true demoAtoms
        initSoup).mateStore.map (fun mm => mm.state) = [MState.DETACHED] := by
  decide

/-- C8 (amended): with publication enabled, each discovery cycle publishes
its accumulated MateList, and a processed pair (compatible, not pending)
appends its joint parent/child link names to that message exactly when the
staged update is MATED — the message lists the transitions staged this
cycle, not the Mates currently in state Mated. -/
theorem C8_publishes_staged_mated (pol : MateR → Intent) (pub : Bool)
    (fa : AtomR) (fmp : MatePt) (ma : AtomR) (mmp : MatePt) (s : Soup)
    (idx : Nat) (mate : MateR) (hc : fmp.mtype = mmp.mtype)
    (ht : tblFind s.mate_table fmp.uid mmp.uid = some idx)
    (hm : s.mateStore[idx]? = some mate)
    (hp : mate.pending_state = Intent.NONE) :
    (processPair pol pub fa fmp ma mmp s).mates_msg
      = (if pol mate = Intent.MATED ∧ pub = true then
          s.mates_msg ++ [(mate.femaleLink, mate.maleLink)]
        else s.mates_msg)
    ∧ (∀ (pol2 : MateR → Intent) (atoms : List AtomR) (s2 : Soup),
        (getStateUpdates pol2 true atoms s2).lastPublished
          = some (getStateUpdates pol2 true atoms s2).mates_msg) := by
  constructor
  · rw [processPair_compat hc, lookupOrCreate_found ht, stagePhase_go hm hp]
  · intro pol2 atoms s2
    rfl

/-- C8 witness: on the idle demo state with publication on and a MATED
policy, the pair's link names are appended to the message. -/
theorem C8_publishes_staged_mated_witness :
    (processPair (fun _ => Intent.MATED) true demoFA demoFPt demoMA demoMPt
        demoIdle).mates_msg
      = demoIdle.mates_msg ++ [("female_atom", "male_atom")]
    ∧ (getStateUpdates (fun _ => Intent.NONE) true demoAtoms
        initSoup).lastPublished
      = some (getStateUpdates (fun _ => Intent.NONE) true demoAtoms
        initSoup).mates_msg := by
  have h := C8_publishes_staged_mated (fun _ => Intent.MATED) true demoFA
    demoFPt demoMA demoMPt demoIdle 0 demoIdleMate (by decide) (by decide)
    (by decide) (by decide)
  refine ⟨?_, h.2 (fun _ => Intent.NONE) demoAtoms initSoup⟩
  rw [h.1]
  decide

/-- C9 counterexample: the claim says any mate_model element naming a model
other than proximity or dipole makes Load fail fast. But the model name is
only validated for a type not yet registered: with two elements of type
"peg", the second naming the invalid model "bogus", the loop skips the
second element entirely and Load completes, registering atoms and the
world-update connection. -/
theorem C9_counterexample :
    (LoadPlugin
      [{ modelAttr := some "proximity", typeAttr := some "peg" },
       { modelAttr := some "bogus", typeAttr := some "peg" }]
      (fun _ => [Frame3.identityF]) []).connection_registered = true
    ∧ (LoadPlugin
      [{ modelAttr := some "proximity", typeAttr := some "peg" },
       { modelAttr := some "bogus", typeAttr := some "peg" }]
      (fun _ => [Frame3.identityF]) []).atoms_registered = true
    ∧ validModel "bogus" = false := by
  decide

/-- C9 (amended): Load fails fast — registering neither atoms nor the
world-update connection — when a mate_model element lacks the model
attribute, lacks the type attribute, or names a model that is neither
proximity nor dipole while its type is not already registered; an element
whose type is already registered is skipped without validating its model
attribute. -/
theorem C9_load_fails_fast :
    (∀ (ty : Option String) (rest : List MateModelElem) (acc : List String),
      loadMateModels ({ modelAttr := none, typeAttr := ty } :: rest) acc
        = (acc, false))
    ∧ (∀ (mstr : String) (rest : List MateModelElem) (acc : List String),
      loadMateModels ({ modelAttr := some mstr, typeAttr := none } :: rest) acc
        = (acc, false))
    ∧ (∀ (mstr t : String) (rest : List MateModelElem) (acc : List String),
      acc.contains t = false → validModel mstr = false →
      loadMateModels ({ modelAttr := some mstr, typeAttr := some t } :: rest)
        acc = (acc, false))
    ∧ (∀ (elems : List MateModelElem) (symsOf : String → List Frame3)
        (ams : List (String × List MPDecl)),
      (loadMateModels elems []).2 = false →
      (LoadPlugin elems symsOf ams).atoms_registered = false
      ∧ (LoadPlugin elems symsOf ams).connection_registered = false
      ∧ (LoadPlugin elems symsOf ams).atom_model_types = []) := by
  refine ⟨?_, ?_, ?_, ?_⟩
  · intro ty rest acc; rfl
  · intro mstr rest acc; rfl
  · intro mstr t rest acc hcon hval
    have hmem : t ∉ acc := by simpa using hcon
    simp [loadMateModels, hmem, hval]
  · intro elems symsOf ams hfail
    unfold LoadPlugin
    cases hmm : loadMateModels elems [] with
    | mk ms b =>
      rw [hmm] at hfail
      simp only at hfail
      subst hfail
      exact ⟨rfl, rfl, rfl⟩

/-- C9 witness: the amended statement instantiated on concrete elements —
a missing model attribute, a missing type attribute, an invalid model for
an unregistered type, and a failing element list on which Load registers
nothing. -/
theorem C9_load_fails_fast_witness :
    loadMateModels [{ modelAttr := none, typeAttr := some "peg" }] []
      = ([], false)
    ∧ loadMateModels [{ modelAttr := some "proximity", typeAttr := none }] []
      = ([], false)
    ∧ loadMateModels [{ modelAttr := some "bogus", typeAttr := some "peg" }] []
      = ([], false)
    ∧ (LoadPlugin [{ modelAttr := some "bogus", typeAttr := some "peg" }]
        (fun _ => [Frame3.identityF]) [("block", [])]).connection_registered
      = false := by
  have h := C9_load_fails_fast
  refine ⟨h.1 (some "peg") [] [], h.2.1 "proximity" [] [],
    h.2.2.1 "bogus" "peg" [] [] (by decide) (by decide), ?_⟩
  exact (h.2.2.2 [{ modelAttr := some "bogus", typeAttr := some "peg" }]
    (fun _ => [Frame3.identityF]) [("block", [])] (by decide)).2.1

/-- C10: a mate_point declaration whose gender is neither "female" nor
"male" (case-insensitively) creates no MatePoint: it only increments the
logged error count, processing continues with the remaining declarations,
and the atom_model loop still registers every atom model. -/
theorem C10_unknown_gender_skipped (g t : String) (p : PoseE)
    (rest : List MPDecl) (am : AModel) (symsOf : String → List Frame3)
    (h1 : iequals g "female" = false) (h2 : iequals g "male" = false) :
    addMatePointDecl symsOf am { gender := g, mtype := t, pose := p }
      = { am with genderErrors := am.genderErrors + 1 }
    ∧ processDecls symsOf ({ gender := g, mtype := t, pose := p } :: rest) am
      = processDecls symsOf rest { am with genderErrors := am.genderErrors + 1 }
    ∧ (∀ ams : List (String × List MPDecl),
        (loadAtomModels symsOf ams).map (fun a => a.1)
          = ams.map (fun a => a.1)) := by
  have hskip : addMatePointDecl symsOf am { gender := g, mtype := t, pose := p }
      = { am with genderErrors := am.genderErrors + 1 } := by
    simp [addMatePointDecl, h1, h2]
  refine ⟨hskip, ?_, ?_⟩
  · unfold processDecls
    rw [List.foldl_cons, hskip]
  · intro ams
    simp [loadAtomModels]

/-- C10 witness: the declaration with gender "robot" creates nothing, logs
one error, and both atom models of the list are still registered. -/
theorem C10_unknown_gender_skipped_witness :
    addMatePointDecl (fun _ => [Frame3.identityF]) emptyAModel
      { gender := "robot", mtype := "peg", pose := PoseE.declared "p" }
      = { emptyAModel with genderErrors := emptyAModel.genderErrors + 1 }
    ∧ (loadAtomModels (fun _ => [Frame3.identityF])
        [("block", [{ gender := "robot", mtype := "peg",
                      pose := PoseE.declared "p" }]), ("rod", [])]).map
        (fun a => a.1)
      = ["block", "rod"] := by
  have h := C10_unknown_gender_skipped "robot" "peg" (PoseE.declared "p") []
    emptyAModel (fun _ => [Frame3.identityF]) (by decide) (by decide)
  refine ⟨h.1, ?_⟩
  have h3 := h.2.2 [("block",
    [{ gender := "robot", mtype := "peg", pose := PoseE.declared "p" }]),
    ("rod", [])]
  rw [h3]
  decide

end AssemblySim
